import Mathlib

/-!
Verification of the claim-and-consistency subsystem of the ecorewards
backend: a shallow embedding of the reward-claim protocol (claim creation
with its pre-save cascade, claim reversal, QR availability checking, eco
levels, and leaderboard ranking), together with theorems settling the
specification claims about it.

Sources embedded:
- src/src/models/activity.model.js (RewardClaim schema statics/methods,
  the pre-save hook, the Reward virtuals, the Leaderboard statics)
- src/src/models/user.model.js (updateEcoLevel)
- src/src/models/partner.model.js (isEligibleForRewards)
- src/src/validations/partner.validation.js (QRCode methods
  isValidForScanning, recordSuccessfulClaim)
- src/unnamed/part_013 (claim controller: claimReward, reverseClaim)

Modelling conventions: Mongo documents are Lean structures held in
association lists keyed by numeric ids; timestamps are naturals;
findByIdAndUpdate with an increment is an update of every entry with the
matching key; a mongoose save of a loaded document writes the document's
in-memory field values (so a stale snapshot overwrites concurrent
increments, as in the source where recordSuccessfulClaim saves a snapshot
loaded at the start of the request); the unconditional unique index on
(userId, qrCodeId) declared in activity.model.js line 331 makes an insert
abort after the pre-save hook has already run, which the model reflects.
-/

inductive EcoLevel
  | beginner | intermediate | advanced | expert | leader
deriving DecidableEq

inductive ClaimStatus
  | pending | completed | failed | reversed
deriving DecidableEq

inductive VerificationStatus
  | pending | verified | rejected
deriving DecidableEq

inductive RankMovement
  | up | down | none | new
deriving DecidableEq

/-- User document: the fields of user.model.js that the claim subsystem
touches. claimedRewards entries are (rewardId, qrCodeId, pointsAwarded,
claimedAt). -/
structure User where
  name : String
  points : Nat
  ecoLevel : EcoLevel
  claimedRewards : List (Nat × Nat × Nat × Nat)
deriving DecidableEq

/-- Partner document (partner.model.js), reduced to the fields read by the
claim subsystem. -/
structure Partner where
  verificationStatus : VerificationStatus
  isActive : Bool
deriving DecidableEq

/-- Reward document (activity.model.js RewardSchema). totalMaxClaims and
expiryDate are nullable. currentClaims is mutated by raw increments
(findByIdAndUpdate bypasses the schema minimum), hence an integer. -/
structure Reward where
  partnerId : Nat
  points : Nat
  maxClaimsPerUser : Nat
  totalMaxClaims : Option Nat
  currentClaims : Int
  expiryDate : Option Nat
  isActive : Bool
deriving DecidableEq

/-- QRCode document (partner.validation.js QRCodeSchema): the public code
string plus the counters and links the claim subsystem reads. -/
structure QRCode where
  code : String
  partnerId : Nat
  rewardId : Nat
  isActive : Bool
  successfulClaims : Int
deriving DecidableEq

/-- RewardClaim document (activity.model.js RewardClaimSchema). -/
structure Claim where
  id : Nat
  userId : Nat
  qrCodeId : Nat
  partnerId : Nat
  rewardId : Nat
  pointsAwarded : Nat
  status : ClaimStatus
  claimedAt : Nat
  notes : Option String
deriving DecidableEq

/-- The database state seen by the claim subsystem. now is the clock used
for expiry checks and claimedAt stamps. -/
structure DB where
  users : List (Nat × User)
  partners : List (Nat × Partner)
  rewards : List (Nat × Reward)
  qrCodes : List (Nat × QRCode)
  claims : List Claim
  nextClaimId : Nat
  now : Nat
deriving DecidableEq

/-- Leaderboard document (activity.model.js LeaderboardSchema), reduced to
the fields updateAllRankings reads and writes. -/
structure LBEntry where
  userId : Nat
  totalPoints : Nat
  currentRank : Option Nat
  previousRank : Option Nat
  rankMovement : RankMovement
deriving DecidableEq

/-- Verdict of the QR availability check, as in isValidForScanning. -/
structure Validity where
  valid : Bool
  reason : String
deriving DecidableEq

/-- user.model.js updateEcoLevel: the if-chain assigning ecoLevel from
points. -/
def updateEcoLevelPoints (points : Nat) : EcoLevel :=
  if points ≥ 1000 then .leader
  else if points ≥ 500 then .expert
  else if points ≥ 250 then .advanced
  else if points ≥ 100 then .intermediate
  else .beginner

/-- The pure level function exactly as the specification tables it:
points at least 1000 map to leader, 500 to 999 to expert, 250 to 499 to
advanced, 100 to 249 to intermediate, below 100 to beginner. Stated from
the spec wording, to be compared with updateEcoLevelPoints. -/
def levelFor (points : Nat) : EcoLevel :=
  if points ≥ 1000 then .leader
  else if 500 ≤ points ∧ points ≤ 999 then .expert
  else if 250 ≤ points ∧ points ≤ 499 then .advanced
  else if 100 ≤ points ∧ points ≤ 249 then .intermediate
  else .beginner

/-- Reward virtual isExpired: null expiry never expires, otherwise strict
comparison of the clock against the expiry date. -/
def rewardIsExpired (r : Reward) (now : Nat) : Bool :=
  match r.expiryDate with
  | Option.none => false
  | some e => now > e

/-- Reward virtual isMaxedOut. In the source the guard is a javascript
falsiness test on totalMaxClaims, so a stored 0 also means unlimited. -/
def rewardIsMaxedOut (r : Reward) : Bool :=
  match r.totalMaxClaims with
  | Option.none => false
  | some 0 => false
  | some m => r.currentClaims ≥ (m : Int)

/-- Reward virtual isAvailable. -/
def rewardIsAvailable (r : Reward) (now : Nat) : Bool :=
  r.isActive && !(rewardIsExpired r now) && !(rewardIsMaxedOut r)

/-- Reward method canUserClaim. -/
def canUserClaim (r : Reward) (now : Nat) (userClaimCount : Nat) : Bool :=
  rewardIsAvailable r now && userClaimCount < r.maxClaimsPerUser

/-- Partner method isEligibleForRewards. -/
def isEligibleForRewards (p : Partner) : Bool :=
  p.verificationStatus == .verified && p.isActive

/-- QRCode method isValidForScanning, with the reward and partner the
source fetches passed in as the lookup results. -/
def isValidForScanning (qr : QRCode) (reward : Option Reward)
    (partner : Option Partner) (now : Nat) : Validity :=
  if !qr.isActive then ⟨false, "QR code is inactive"⟩
  else
    match reward with
    | Option.none => ⟨false, "Associated reward not found"⟩
    | some r =>
      if !r.isActive then ⟨false, "Reward is inactive"⟩
      else if rewardIsExpired r now then ⟨false, "Reward has expired"⟩
      else if rewardIsMaxedOut r then
        ⟨false, "Reward has reached maximum claims"⟩
      else
        match partner with
        | Option.none => ⟨false, "Associated partner not found"⟩
        | some p =>
          if !(isEligibleForRewards p) then
            ⟨false, "Partner is not eligible"⟩
          else ⟨true, "QR code is valid"⟩

/-- First failing check of an ordered list of (condition, failure reason)
pairs, the shape in which the specification phrases the availability
engine. -/
def firstFailure : List (Bool × String) → Option String
  | [] => Option.none
  | (ok, reason) :: rest => if ok then firstFailure rest else some reason

/-- The availability engine exactly as the specification words it: seven
checks in order, first failure wins, the stated success verdict otherwise.
Stated from the spec wording, to be compared with isValidForScanning. -/
def availabilitySpec (qr : QRCode) (reward : Option Reward)
    (partner : Option Partner) (now : Nat) : Validity :=
  match firstFailure
    [(qr.isActive, "QR code is inactive"),
     (reward.isSome, "Associated reward not found"),
     ((reward.map (·.isActive)).getD true, "Reward is inactive"),
     ((reward.map (fun r => !(rewardIsExpired r now))).getD true,
       "Reward has expired"),
     ((reward.map (fun r => !(rewardIsMaxedOut r))).getD true,
       "Reward has reached maximum claims"),
     (partner.isSome, "Associated partner not found"),
     ((partner.map isEligibleForRewards).getD true,
       "Partner is not eligible")] with
  | some r => ⟨false, r⟩
  | Option.none => ⟨true, "QR code is valid"⟩

/-- Number of claims in a ledger satisfying a predicate. -/
def countClaims (p : Claim → Bool) : List Claim → Nat
  | [] => 0
  | c :: cs => (if p c then 1 else 0) + countClaims p cs

/-- Sum of pointsAwarded over the claims satisfying a predicate. -/
def sumClaims (p : Claim → Bool) : List Claim → Nat
  | [] => 0
  | c :: cs => (if p c then c.pointsAwarded else 0) + sumClaims p cs

/-- The in-memory mutation the reverseClaim method performs on the claim
document before saving it: status becomes reversed and, when a reason is
given, the notes are overwritten. -/
def flipClaim (reason : Option String) (c : Claim) : Claim :=
  { c with status := .reversed,
           notes := match reason with
                    | some r => some ("Reversed: " ++ r)
                    | Option.none => c.notes }

/-- Saving the reversed claim document: the first ledger entry with the
given id (the one findById returned) is replaced by its flipped form. -/
def reverseFirstClaim (cid : Nat) (reason : Option String) :
    List Claim → List Claim
  | [] => []
  | c :: cs =>
    if c.id == cid then flipClaim reason c :: cs
    else c :: reverseFirstClaim cid reason cs

/-- Outcome of a claim request, mirroring the responses of the claimReward
controller. qrNotFound is the 404; invalid, alreadyClaimed and
quotaExceeded are the three 400 rejections; duplicateKeyError is the
insert aborting on the unique (userId, qrCodeId) index after the pre-save
hook already ran. -/
inductive ClaimOutcome
  | qrNotFound
  | invalid (reason : String)
  | alreadyClaimed (claimedAt : Nat) (pointsAwarded : Nat)
  | quotaExceeded (userClaimCount : Nat) (maxAllowed : Nat)
  | duplicateKeyError
  | success (claimId : Nat) (pointsAwarded : Nat)
deriving DecidableEq

/-- Outcome of a reversal request, mirroring the reverseClaim controller:
404 when absent, 400 when already reversed, success otherwise. -/
inductive ReverseOutcome
  | notFound
  | alreadyReversed
  | reversedOk
deriving DecidableEq

/-- The status filter both duplicate detection (hasUserClaimedQR) and
claim counting (getUserClaimCount) use in the source: completed or
pending. -/
def countedStatus (c : Claim) : Bool :=
  c.status == .completed || c.status == .pending

/-- hasUserClaimedQR: first claim of the user for the QR code whose
status is completed or pending. -/
def hasUserClaimedQR (claims : List Claim) (uid qid : Nat) : Option Claim :=
  claims.find? (fun c => c.userId == uid && c.qrCodeId == qid && countedStatus c)

/-- getUserClaimCount: number of completed or pending claims of the user
for the reward. -/
def getUserClaimCount (claims : List Claim) (uid rid : Nat) : Nat :=
  countClaims (fun c => c.userId == uid && c.rewardId == rid && countedStatus c) claims

/-- The availability verdict the controller obtains for a QR code: the
reward and partner lookups of isValidForScanning resolved against the
database. -/
def qrValidation (db : DB) (qr : QRCode) : Validity :=
  isValidForScanning qr
    ((db.rewards.find? (fun kv => kv.1 == qr.rewardId)).map (·.2))
    ((db.partners.find? (fun kv => kv.1 == qr.partnerId)).map (·.2))
    db.now

/-- The RewardClaim pre-save hook for a new completed claim: add the
points to the user, append to the claimedRewards log, recompute the eco
level and save the user; then increment the successfulClaims counter of
the QR code and the currentClaims counter of the reward by direct
findByIdAndUpdate increments. A missing user is skipped, a missing QR
code or reward makes the increment a no-op. -/
def applyPreSaveHook (db : DB) (uid qid rid pts now : Nat) : DB :=
  let users' :=
    match db.users.find? (fun kv => kv.1 == uid) with
    | Option.none => db.users
    | some (_, u) =>
      let pts' := u.points + pts
      let u' : User :=
        { u with points := pts',
                 claimedRewards := u.claimedRewards ++ [(rid, qid, pts, now)],
                 ecoLevel := updateEcoLevelPoints pts' }
      db.users.map (fun kv => if kv.1 == uid then (kv.1, u') else kv)
  let qrs' := db.qrCodes.map (fun kv =>
    if kv.1 == qid then
      (kv.1, { kv.2 with successfulClaims := kv.2.successfulClaims + 1 })
    else kv)
  let rws' := db.rewards.map (fun kv =>
    if kv.1 == rid then
      (kv.1, { kv.2 with currentClaims := kv.2.currentClaims + 1 })
    else kv)
  { db with users := users', qrCodes := qrs', rewards := rws' }

/-- recordSuccessfulClaim as executed by the controller: the QR document
loaded at the start of the request has its in-memory counter bumped and is
saved, writing that snapshot value over whatever the hook incremented. -/
def setQRSuccessfulClaims (db : DB) (qid : Nat) (v : Int) : DB :=
  { db with qrCodes := db.qrCodes.map (fun kv =>
      if kv.1 == qid then (kv.1, { kv.2 with successfulClaims := v }) else kv) }

/-- The claim document the controller creates: status completed, points
taken from the reward, ids taken from the populated QR code. -/
def newClaimOf (db : DB) (uid qid : Nat) (qr : QRCode) (reward : Reward) : Claim :=
  { id := db.nextClaimId, userId := uid, qrCodeId := qid,
    partnerId := qr.partnerId, rewardId := qr.rewardId,
    pointsAwarded := reward.points, status := .completed,
    claimedAt := db.now, notes := Option.none }

/-- The state after a fully successful claim: pre-save hook effects, the
inserted claim record, and the recordSuccessfulClaim save of the stale QR
snapshot. -/
def successState (db : DB) (uid qid : Nat) (qr : QRCode) (reward : Reward) : DB :=
  let db1 := applyPreSaveHook db uid qid qr.rewardId reward.points db.now
  let db2 := { db1 with claims := db1.claims ++ [newClaimOf db uid qid qr reward],
                        nextClaimId := db1.nextClaimId + 1 }
  setQRSuccessfulClaims db2 qid (qr.successfulClaims + 1)

/-- The claimReward controller (part_013 lines 11 to 129): resolve the QR
code by its public string, validate availability, reject duplicates of
the same QR code, enforce the per-user cap, then create the claim. The
creation runs the pre-save hook effects first; the insert itself aborts
on the unconditional unique (userId, qrCodeId) index when any previous
claim record for the pair exists, leaving the hook effects in place.
On success recordSuccessfulClaim saves the stale QR snapshot. -/
def claimRewardOp (db : DB) (uid : Nat) (code : String) : ClaimOutcome × DB :=
  match db.qrCodes.find? (fun kv => kv.2.code == code) with
  | Option.none => (.qrNotFound, db)
  | some (qid, qr) =>
    let val := qrValidation db qr
    if !val.valid then (.invalid val.reason, db)
    else
      match hasUserClaimedQR db.claims uid qid with
      | some existing =>
        (.alreadyClaimed existing.claimedAt existing.pointsAwarded, db)
      | Option.none =>
        match (db.rewards.find? (fun kv => kv.1 == qr.rewardId)).map (·.2) with
        | Option.none => (.invalid "Associated reward not found", db)
        | some reward =>
          let cnt := getUserClaimCount db.claims uid qr.rewardId
          if !(canUserClaim reward db.now cnt) then
            (.quotaExceeded cnt reward.maxClaimsPerUser, db)
          else
            if db.claims.any (fun c => c.userId == uid && c.qrCodeId == qid) then
              (.duplicateKeyError,
               applyPreSaveHook db uid qid qr.rewardId reward.points db.now)
            else
              (.success db.nextClaimId reward.points,
               successState db uid qid qr reward)

/-- The state after reversing the claim document c: points deducted with
the floor at zero (natural subtraction), eco level recomputed, both
counters decremented, the claim record saved as reversed. -/
def reverseState (db : DB) (cid : Nat) (reason : Option String) (c : Claim) : DB :=
  let users' :=
    match db.users.find? (fun kv => kv.1 == c.userId) with
    | Option.none => db.users
    | some (_, u) =>
      let pts' := u.points - c.pointsAwarded
      let u' : User := { u with points := pts',
                                ecoLevel := updateEcoLevelPoints pts' }
      db.users.map (fun kv => if kv.1 == c.userId then (kv.1, u') else kv)
  let qrs' := db.qrCodes.map (fun kv =>
    if kv.1 == c.qrCodeId then
      (kv.1, { kv.2 with successfulClaims := kv.2.successfulClaims - 1 })
    else kv)
  let rws' := db.rewards.map (fun kv =>
    if kv.1 == c.rewardId then
      (kv.1, { kv.2 with currentClaims := kv.2.currentClaims - 1 })
    else kv)
  { db with users := users', qrCodes := qrs', rewards := rws',
            claims := reverseFirstClaim cid reason db.claims }

/-- The reverseClaim controller (part_013 lines 401 to 433) plus the
reverseClaim model method (activity.model.js lines 365 to 391): 404 when
the claim is absent, 400 when it is already reversed, otherwise deduct
the awarded points from the user floored at zero, recompute the eco
level, decrement the successfulClaims and currentClaims counters, and
save the claim as reversed. -/
def reverseClaimOp (db : DB) (cid : Nat) (reason : Option String) :
    ReverseOutcome × DB :=
  match db.claims.find? (fun c => c.id == cid) with
  | Option.none => (.notFound, db)
  | some c =>
    if c.status == .reversed then (.alreadyReversed, db)
    else (.reversedOk, reverseState db cid reason c)

/-- An operation of the claim subsystem: a claim request or a reversal
request. -/
inductive Op
  | claim (uid : Nat) (code : String)
  | reverse (cid : Nat) (reason : Option String)
deriving DecidableEq

/-- Run one operation, also reporting whether it avoided the
duplicate-key abort (every other outcome, including the rejections,
leaves a clean state in the source). -/
def applyOp (db : DB) : Op → DB × Bool
  | .claim uid code =>
    ((claimRewardOp db uid code).2,
     !((claimRewardOp db uid code).1 == .duplicateKeyError))
  | .reverse cid reason => ((reverseClaimOp db cid reason).2, true)

/-- The state after one operation. -/
def stepOp (db : DB) (op : Op) : DB := (applyOp db op).1

/-- Run a sequence of operations; the flag is true when no operation
aborted on the unique index. -/
def runOps : DB → List Op → DB × Bool
  | db, [] => (db, true)
  | db, op :: ops =>
    ((runOps (stepOp db op) ops).1,
     (applyOp db op).2 && (runOps (stepOp db op) ops).2)

/-- Insertion into a list kept sorted by totalPoints descending: the entry
goes in front of the first strictly smaller element, so equal totals keep
their stored order (the sort the source obtains from the store). -/
def insertDesc (e : LBEntry) : List LBEntry → List LBEntry
  | [] => [e]
  | x :: xs =>
    if x.totalPoints < e.totalPoints then e :: x :: xs
    else x :: insertDesc e xs

/-- All leaderboard entries sorted by totalPoints descending, as the
updateAllRankings static fetches them. -/
def sortDesc : List LBEntry → List LBEntry
  | [] => []
  | e :: l => insertDesc e (sortDesc l)

/-- The rankMovement expression of updateAllRankings: a javascript
truthiness test on the old currentRank (null and 0 both select new),
then comparison of the fresh rank against it. -/
def rankMovementOf (old : Option Nat) (newRank : Nat) : RankMovement :=
  match old with
  | Option.none => .new
  | some 0 => .new
  | some r => if newRank < r then .up else if newRank > r then .down else .none

/-- The per-entry update of updateAllRankings at a position: previousRank
receives the old currentRank, currentRank becomes index + 1, and
rankMovement is derived from the comparison. -/
def assignRank (ie : Nat × LBEntry) : LBEntry :=
  { ie.2 with previousRank := ie.2.currentRank,
              currentRank := some (ie.1 + 1),
              rankMovement := rankMovementOf ie.2.currentRank (ie.1 + 1) }

/-- Leaderboard static updateAllRankings (activity.model.js lines 638 to
669): entries sorted by totalPoints descending, each updated from its
position in the sorted order. -/
def updateAllRankings (l : List LBEntry) : List LBEntry :=
  (sortDesc l).enum.map assignRank

/-- A claim that counts against the invariants: any status other than
reversed. -/
def nonReversed (c : Claim) : Bool := !(c.status == .reversed)

/-- The reward-counter invariant of the specification: every stored
reward's currentClaims equals the number of non-reversed claims
referencing it. -/
def RewardConsistent (db : DB) : Prop :=
  ∀ kv ∈ db.rewards,
    kv.2.currentClaims =
      (countClaims (fun c => c.rewardId == kv.1 && nonReversed c) db.claims : Int)

/-- The QR-counter invariant of the specification: every stored QR code's
successfulClaims equals the number of non-reversed claims referencing
it. -/
def QRConsistent (db : DB) : Prop :=
  ∀ kv ∈ db.qrCodes,
    kv.2.successfulClaims =
      (countClaims (fun c => c.qrCodeId == kv.1 && nonReversed c) db.claims : Int)

/-- The user-points invariant of the specification: every stored user's
points equal the sum of pointsAwarded over their non-reversed claims. -/
def UserConsistent (db : DB) : Prop :=
  ∀ kv ∈ db.users,
    kv.2.points =
      sumClaims (fun c => c.userId == kv.1 && nonReversed c) db.claims

instance (db : DB) : Decidable (RewardConsistent db) := by
  unfold RewardConsistent; infer_instance

instance (db : DB) : Decidable (QRConsistent db) := by
  unfold QRConsistent; infer_instance

instance (db : DB) : Decidable (UserConsistent db) := by
  unfold UserConsistent; infer_instance

/-- The outcomes the controller reports as a 400 client error. -/
def isClientError : ClaimOutcome → Bool
  | .invalid _ => true
  | .alreadyClaimed _ _ => true
  | .quotaExceeded _ _ => true
  | _ => false

/-- Number of non-reversed claims of a user for a reward, the quantity the
per-user cap of the specification speaks about. -/
def capCount (db : DB) (uid rid : Nat) : Nat :=
  countClaims (fun c => c.userId == uid && c.rewardId == rid && nonReversed c)
    db.claims

/-- No operation of the sequence reverses a claim of the given user for
the given reward (evaluated against the state each reversal actually
targets). -/
def noUserRewardReversal (uid rid : Nat) : DB → List Op → Bool
  | _, [] => true
  | db, op :: ops =>
    (match op with
     | .reverse cid _ =>
       (match db.claims.find? (fun x => x.id == cid) with
        | some c => !(c.userId == uid && c.rewardId == rid)
        | Option.none => true)
     | .claim _ _ => true) &&
    noUserRewardReversal uid rid (stepOp db op) ops

/-- A reference state used by several example evaluations: one user, one
verified active partner, one active 10-point reward capped at one claim
per user, and one active QR code bound to it. -/
def exDB : DB :=
  { users := [(0, { name := "u", points := 0, ecoLevel := .beginner,
                    claimedRewards := [] })],
    partners := [(0, { verificationStatus := .verified, isActive := true })],
    rewards := [(0, { partnerId := 0, points := 10, maxClaimsPerUser := 1,
                      totalMaxClaims := Option.none, currentClaims := 0,
                      expiryDate := Option.none, isActive := true })],
    qrCodes := [(0, { code := "qr1", partnerId := 0, rewardId := 0,
                      isActive := true, successfulClaims := 0 })],
    claims := [], nextClaimId := 0, now := 5 }

/-- The claim, reverse, re-claim sequence: the re-claim passes both
guards (the reversed claim is filtered out of the duplicate check and of
the per-user count), runs the pre-save hook, and then aborts on the
unique (userId, qrCodeId) index. -/
def exOps : List Op := [.claim 0 "qr1", .reverse 0 Option.none, .claim 0 "qr1"]

/-- exDB extended with a second QR code bound to the same reward, for the
quota-reset scenario. -/
def exDB2 : DB :=
  { exDB with qrCodes :=
      [(0, { code := "qr1", partnerId := 0, rewardId := 0,
             isActive := true, successfulClaims := 0 }),
       (1, { code := "qr2", partnerId := 0, rewardId := 0,
             isActive := true, successfulClaims := 0 })] }

@[simp]
lemma flipClaim_userId (reason : Option String) (c : Claim) :
    (flipClaim reason c).userId = c.userId := rfl

@[simp]
lemma flipClaim_qrCodeId (reason : Option String) (c : Claim) :
    (flipClaim reason c).qrCodeId = c.qrCodeId := rfl

@[simp]
lemma flipClaim_rewardId (reason : Option String) (c : Claim) :
    (flipClaim reason c).rewardId = c.rewardId := rfl

@[simp]
lemma flipClaim_pointsAwarded (reason : Option String) (c : Claim) :
    (flipClaim reason c).pointsAwarded = c.pointsAwarded := rfl

@[simp]
lemma flipClaim_status (reason : Option String) (c : Claim) :
    (flipClaim reason c).status = .reversed := rfl

@[simp]
lemma flipClaim_id (reason : Option String) (c : Claim) :
    (flipClaim reason c).id = c.id := rfl

lemma countClaims_append (p : Claim → Bool) (l : List Claim) (c : Claim) :
    countClaims p (l ++ [c]) = countClaims p l + (if p c then 1 else 0) := by
  induction l with
  | nil => simp [countClaims]
  | cons x xs ih => simp [countClaims, ih, Nat.add_assoc]

lemma sumClaims_append (p : Claim → Bool) (l : List Claim) (c : Claim) :
    sumClaims p (l ++ [c]) = sumClaims p l + (if p c then c.pointsAwarded else 0) := by
  induction l with
  | nil => simp [sumClaims]
  | cons x xs ih => simp [sumClaims, ih, Nat.add_assoc]

lemma countClaims_congr (p q : Claim → Bool) (l : List Claim)
    (h : ∀ c ∈ l, p c = q c) : countClaims p l = countClaims q l := by
  induction l with
  | nil => rfl
  | cons x xs ih =>
    simp only [countClaims, h x (by simp)]
    rw [ih (fun c hc => h c (by simp [hc]))]

lemma find?_congr {α : Type} (p q : α → Bool) (l : List α)
    (h : ∀ x ∈ l, p x = q x) : l.find? p = l.find? q := by
  induction l with
  | nil => rfl
  | cons x xs ih =>
    by_cases hx : p x = true
    · rw [List.find?_cons_of_pos _ hx, List.find?_cons_of_pos]
      rw [← h x (by simp)]; exact hx
    · rw [List.find?_cons_of_neg _ (by simpa using hx), List.find?_cons_of_neg,
        ih (fun c hc => h c (by simp [hc]))]
      rw [← h x (by simp)]; simpa using hx

lemma countClaims_reverseFirst (p : Claim → Bool) (cid : Nat)
    (reason : Option String) (l : List Claim) (c : Claim)
    (h : l.find? (fun x => x.id == cid) = some c) :
    countClaims p (reverseFirstClaim cid reason l) + (if p c then 1 else 0)
      = countClaims p l + (if p (flipClaim reason c) then 1 else 0) := by
  induction l with
  | nil => simp at h
  | cons x xs ih =>
    rcases hx : x.id == cid with _ | _
    · simp only [List.find?_cons, hx] at h
      have := ih h
      simp only [reverseFirstClaim, hx, Bool.false_eq_true, if_false, countClaims]
      omega
    · simp only [List.find?_cons, hx] at h
      have hc : x = c := by simpa using h
      subst hc
      simp only [reverseFirstClaim, hx, if_pos, countClaims]
      omega

lemma sumClaims_reverseFirst (p : Claim → Bool) (cid : Nat)
    (reason : Option String) (l : List Claim) (c : Claim)
    (h : l.find? (fun x => x.id == cid) = some c) :
    sumClaims p (reverseFirstClaim cid reason l) + (if p c then c.pointsAwarded else 0)
      = sumClaims p l
        + (if p (flipClaim reason c) then (flipClaim reason c).pointsAwarded else 0) := by
  induction l with
  | nil => simp at h
  | cons x xs ih =>
    rcases hx : x.id == cid with _ | _
    · simp only [List.find?_cons, hx] at h
      have := ih h
      simp only [reverseFirstClaim, hx, Bool.false_eq_true, if_false, sumClaims]
      omega
    · simp only [List.find?_cons, hx] at h
      have hc : x = c := by simpa using h
      subst hc
      simp only [reverseFirstClaim, hx, if_pos, sumClaims, flipClaim_pointsAwarded]
      omega

lemma find?_mapUpdate {α : Type} (l : List (Nat × α)) (k0 : Nat)
    (f : Nat × α → Nat × α) (hf : ∀ kv, (f kv).1 = kv.1) (k : Nat) :
    (l.map (fun kv => if kv.1 == k0 then f kv else kv)).find? (fun kv => kv.1 == k)
      = (l.find? (fun kv => kv.1 == k)).map
          (fun kv => if kv.1 == k0 then f kv else kv) := by
  induction l with
  | nil => rfl
  | cons x xs ih =>
    have hkey : ((if x.1 == k0 then f x else x).1 == k) = (x.1 == k) := by
      split
      · rw [hf x]
      · rfl
    rcases hx : x.1 == k with _ | _
    · rw [List.map_cons]
      simp only [List.find?_cons, hkey, hx]
      exact ih
    · rw [List.map_cons]
      simp only [List.find?_cons, hkey, hx]
      rfl

lemma stepOp_claim (db : DB) (uid : Nat) (code : String) :
    stepOp db (.claim uid code) = (claimRewardOp db uid code).2 := rfl

lemma stepOp_reverse (db : DB) (cid : Nat) (reason : Option String) :
    stepOp db (.reverse cid reason) = (reverseClaimOp db cid reason).2 := rfl

lemma successState_rewards (db : DB) (uid qid : Nat) (qr : QRCode) (reward : Reward) :
    (successState db uid qid qr reward).rewards
      = db.rewards.map (fun kv =>
          if kv.1 == qr.rewardId then
            (kv.1, { kv.2 with currentClaims := kv.2.currentClaims + 1 })
          else kv) := rfl

lemma successState_claims (db : DB) (uid qid : Nat) (qr : QRCode) (reward : Reward) :
    (successState db uid qid qr reward).claims
      = db.claims ++ [newClaimOf db uid qid qr reward] := rfl

lemma successState_qrCodes (db : DB) (uid qid : Nat) (qr : QRCode) (reward : Reward) :
    (successState db uid qid qr reward).qrCodes
      = (db.qrCodes.map (fun kv =>
          if kv.1 == qid then
            (kv.1, { kv.2 with successfulClaims := kv.2.successfulClaims + 1 })
          else kv)).map (fun kv =>
          if kv.1 == qid then
            (kv.1, { kv.2 with successfulClaims := qr.successfulClaims + 1 })
          else kv) := rfl

lemma successState_users (db : DB) (uid qid : Nat) (qr : QRCode) (reward : Reward) :
    (successState db uid qid qr reward).users
      = (applyPreSaveHook db uid qid qr.rewardId reward.points db.now).users := rfl

lemma reverseState_rewards (db : DB) (cid : Nat) (reason : Option String) (c : Claim) :
    (reverseState db cid reason c).rewards
      = db.rewards.map (fun kv =>
          if kv.1 == c.rewardId then
            (kv.1, { kv.2 with currentClaims := kv.2.currentClaims - 1 })
          else kv) := rfl

lemma reverseState_qrCodes (db : DB) (cid : Nat) (reason : Option String) (c : Claim) :
    (reverseState db cid reason c).qrCodes
      = db.qrCodes.map (fun kv =>
          if kv.1 == c.qrCodeId then
            (kv.1, { kv.2 with successfulClaims := kv.2.successfulClaims - 1 })
          else kv) := rfl

lemma reverseState_claims (db : DB) (cid : Nat) (reason : Option String) (c : Claim) :
    (reverseState db cid reason c).claims = reverseFirstClaim cid reason db.claims := rfl

lemma claimRewardOp_shape (db : DB) (uid : Nat) (code : String) :
    (claimRewardOp db uid code).2 = db ∨
    ∃ qid qr reward,
      db.qrCodes.find? (fun kv => kv.2.code == code) = some (qid, qr) ∧
      (db.rewards.find? (fun kv => kv.1 == qr.rewardId)).map (·.2) = some reward ∧
      (((claimRewardOp db uid code).1 = ClaimOutcome.duplicateKeyError ∧
        (claimRewardOp db uid code).2 =
          applyPreSaveHook db uid qid qr.rewardId reward.points db.now) ∨
       ((claimRewardOp db uid code).1 ≠ ClaimOutcome.duplicateKeyError ∧
        (claimRewardOp db uid code).2 = successState db uid qid qr reward)) := by
  rcases hfind : db.qrCodes.find? (fun kv => kv.2.code == code) with _ | ⟨qid, qr⟩
  · left; simp [claimRewardOp, hfind]
  · rcases hval : (qrValidation db qr).valid with _ | _
    · left; simp [claimRewardOp, hfind, hval]
    · rcases hdup : hasUserClaimedQR db.claims uid qid with _ | ec
      · rcases hrw : (db.rewards.find? (fun kv => kv.1 == qr.rewardId)).map (·.2)
          with _ | reward
        · left; simp [claimRewardOp, hfind, hval, hdup, hrw]
        · rcases hquota : canUserClaim reward db.now
              (getUserClaimCount db.claims uid qr.rewardId) with _ | _
          · left; simp [claimRewardOp, hfind, hval, hdup, hrw, hquota]
          · rcases hany : db.claims.any
                (fun c => c.userId == uid && c.qrCodeId == qid) with _ | _
            · right
              refine ⟨qid, qr, reward, hfind, hrw, Or.inr ⟨?_, ?_⟩⟩ <;>
                simp [claimRewardOp, hfind, hval, hdup, hrw, hquota, hany]
            · right
              refine ⟨qid, qr, reward, hfind, hrw, Or.inl ⟨?_, ?_⟩⟩ <;>
                simp [claimRewardOp, hfind, hval, hdup, hrw, hquota, hany]
      · left; simp [claimRewardOp, hfind, hval, hdup]

lemma reverseClaimOp_shape (db : DB) (cid : Nat) (reason : Option String) :
    (reverseClaimOp db cid reason).2 = db ∨
    ∃ c, db.claims.find? (fun x => x.id == cid) = some c ∧
      (c.status == ClaimStatus.reversed) = false ∧
      (reverseClaimOp db cid reason).2 = reverseState db cid reason c := by
  rcases hc : db.claims.find? (fun x => x.id == cid) with _ | c
  · left; simp [reverseClaimOp, hc]
  · rcases hst : c.status == ClaimStatus.reversed with _ | _
    · right; exact ⟨c, hc, hst, by simp [reverseClaimOp, hc, hst]⟩
    · left; simp [reverseClaimOp, hc, hst]

lemma runOps_preserves (P : DB → Prop)
    (hstep : ∀ db op, P db → (applyOp db op).2 = true → P (stepOp db op)) :
    ∀ (ops : List Op) (db : DB), P db → (runOps db ops).2 = true →
      P (runOps db ops).1 := by
  intro ops
  induction ops with
  | nil => exact fun db h _ => h
  | cons op ops ih =>
    intro db h hok
    simp only [runOps, Bool.and_eq_true] at hok
    simp only [runOps]
    exact ih (stepOp db op) (hstep db op h hok.1) hok.2

lemma nonReversed_flipClaim (reason : Option String) (c : Claim) :
    nonReversed (flipClaim reason c) = false := by
  simp [nonReversed]

lemma nonReversed_of_status (c : Claim)
    (hst : (c.status == ClaimStatus.reversed) = false) :
    nonReversed c = true := by
  simp [nonReversed, hst]

lemma rewardConsistent_success (db : DB) (uid qid : Nat) (qr : QRCode)
    (reward : Reward) (h : RewardConsistent db) :
    RewardConsistent (successState db uid qid qr reward) := by
  intro kv hkv
  rw [successState_rewards] at hkv
  rcases List.mem_map.1 hkv with ⟨kv0, hkv0, rfl⟩
  have h0 := h kv0 hkv0
  rw [successState_claims, countClaims_append]
  rcases hk : kv0.1 == qr.rewardId with _ | _
  · have hne : (qr.rewardId == kv0.1) = false := by
      simp only [beq_eq_false_iff_ne] at hk ⊢
      exact fun e => hk e.symm
    rw [if_neg (by simp [hk])]
    have hind : ((fun c => c.rewardId == kv0.1 && nonReversed c)
        (newClaimOf db uid qid qr reward)) = false := by
      simp only [newClaimOf, hne, Bool.false_and]
    simp only [hind, Bool.false_eq_true, if_false, Nat.add_zero]
    exact h0
  · have heq : kv0.1 = qr.rewardId := by simpa using hk
    have hbe : (qr.rewardId == kv0.1) = true := by simp [heq]
    rw [if_pos (rfl : (true : Bool) = true)]
    have hind : ((fun c => c.rewardId ==
        (kv0.1, { kv0.2 with currentClaims := kv0.2.currentClaims + 1 }).1
          && nonReversed c) (newClaimOf db uid qid qr reward)) = true := by
      simp only [newClaimOf, nonReversed]
      simp [hbe]
    simp only [hind, if_true]
    omega

lemma rewardConsistent_reverse (db : DB) (cid : Nat) (reason : Option String)
    (c : Claim) (hc : db.claims.find? (fun x => x.id == cid) = some c)
    (hst : (c.status == ClaimStatus.reversed) = false)
    (h : RewardConsistent db) :
    RewardConsistent (reverseState db cid reason c) := by
  intro kv hkv
  rw [reverseState_rewards] at hkv
  rcases List.mem_map.1 hkv with ⟨kv0, hkv0, rfl⟩
  have h0 := h kv0 hkv0
  rw [reverseState_claims]
  rcases hk : kv0.1 == c.rewardId with _ | _
  · have hne : (c.rewardId == kv0.1) = false := by
      simp only [beq_eq_false_iff_ne] at hk ⊢
      exact fun e => hk e.symm
    rw [if_neg (by simp [hk])]
    have hcount := countClaims_reverseFirst
      (fun x => x.rewardId == kv0.1 && nonReversed x) cid reason db.claims c hc
    simp only [flipClaim_rewardId, nonReversed_flipClaim, hne, Bool.false_and,
      Bool.and_false, Bool.false_eq_true, if_false, Nat.add_zero] at hcount
    rw [hcount]
    exact h0
  · have heq : kv0.1 = c.rewardId := by simpa using hk
    have hbe : (c.rewardId == kv0.1) = true := by simp [heq]
    rw [if_pos (rfl : (true : Bool) = true)]
    have hcount := countClaims_reverseFirst
      (fun x => x.rewardId == kv0.1 && nonReversed x) cid reason db.claims c hc
    simp only [flipClaim_rewardId, nonReversed_flipClaim, hbe,
      nonReversed_of_status c hst, Bool.and_false, Bool.and_true,
      Bool.false_eq_true, if_false, if_true, Nat.add_zero] at hcount
    dsimp only
    omega

lemma applyPreSaveHook_claims (db : DB) (uid qid rid pts now : Nat) :
    (applyPreSaveHook db uid qid rid pts now).claims = db.claims := rfl

lemma applyPreSaveHook_rewards (db : DB) (uid qid rid pts now : Nat) :
    (applyPreSaveHook db uid qid rid pts now).rewards
      = db.rewards.map (fun kv =>
          if kv.1 == rid then
            (kv.1, { kv.2 with currentClaims := kv.2.currentClaims + 1 })
          else kv) := rfl

lemma applyPreSaveHook_qrCodes (db : DB) (uid qid rid pts now : Nat) :
    (applyPreSaveHook db uid qid rid pts now).qrCodes
      = db.qrCodes.map (fun kv =>
          if kv.1 == qid then
            (kv.1, { kv.2 with successfulClaims := kv.2.successfulClaims + 1 })
          else kv) := rfl

lemma applyPreSaveHook_users_none (db : DB) (uid qid rid pts now : Nat)
    (hu : db.users.find? (fun kv => kv.1 == uid) = Option.none) :
    (applyPreSaveHook db uid qid rid pts now).users = db.users := by
  simp only [applyPreSaveHook, hu]

lemma applyPreSaveHook_users_some (db : DB) (uid qid rid pts now k : Nat)
    (u : User) (hu : db.users.find? (fun kv => kv.1 == uid) = some (k, u)) :
    (applyPreSaveHook db uid qid rid pts now).users
      = db.users.map (fun kv =>
          if kv.1 == uid then
            (kv.1, { u with points := u.points + pts,
                            claimedRewards :=
                              u.claimedRewards ++ [(rid, qid, pts, now)],
                            ecoLevel := updateEcoLevelPoints (u.points + pts) })
          else kv) := by
  simp only [applyPreSaveHook, hu]

lemma successState_qrCodes_single (db : DB) (uid qid : Nat) (qr : QRCode)
    (reward : Reward) :
    (successState db uid qid qr reward).qrCodes
      = db.qrCodes.map (fun kv =>
          if kv.1 == qid then
            (kv.1, { kv.2 with successfulClaims := qr.successfulClaims + 1 })
          else kv) := by
  rw [successState_qrCodes, List.map_map]
  apply List.map_congr_left
  intro kv _
  rcases hk : kv.1 == qid with _ | _
  · simp [Function.comp, hk]
  · simp [Function.comp, hk]

lemma qrConsistent_success (db : DB) (uid qid : Nat) (qr : QRCode)
    (reward : Reward) (hqr : (qid, qr) ∈ db.qrCodes) (h : QRConsistent db) :
    QRConsistent (successState db uid qid qr reward) := by
  intro kv hkv
  rw [successState_qrCodes_single] at hkv
  rcases List.mem_map.1 hkv with ⟨kv0, hkv0, rfl⟩
  have h0 := h kv0 hkv0
  have hq := h (qid, qr) hqr
  rw [successState_claims, countClaims_append]
  rcases hk : kv0.1 == qid with _ | _
  · have hne : (qid == kv0.1) = false := by
      simp only [beq_eq_false_iff_ne] at hk ⊢
      exact fun e => hk e.symm
    rw [if_neg (by simp [hk])]
    have hind : ((fun c => c.qrCodeId == kv0.1 && nonReversed c)
        (newClaimOf db uid qid qr reward)) = false := by
      simp only [newClaimOf, hne, Bool.false_and]
    simp only [hind, Bool.false_eq_true, if_false, Nat.add_zero]
    exact h0
  · have heq : kv0.1 = qid := by simpa using hk
    rw [if_pos (rfl : (true : Bool) = true)]
    have hind : ((fun c => c.qrCodeId ==
        (kv0.1, { kv0.2 with successfulClaims := qr.successfulClaims + 1 }).1
          && nonReversed c) (newClaimOf db uid qid qr reward)) = true := by
      simp only [newClaimOf, nonReversed]
      simp [heq]
    have hq2 : qr.successfulClaims =
        (countClaims (fun c => c.qrCodeId == qid && nonReversed c) db.claims : Int) :=
      hq
    have hindq : ((newClaimOf db uid qid qr reward).qrCodeId == qid
        && nonReversed (newClaimOf db uid qid qr reward)) = true := by
      simp [newClaimOf, nonReversed]
    simp only [heq, hindq, if_true]
    omega

lemma qrConsistent_reverse (db : DB) (cid : Nat) (reason : Option String)
    (c : Claim) (hc : db.claims.find? (fun x => x.id == cid) = some c)
    (hst : (c.status == ClaimStatus.reversed) = false)
    (h : QRConsistent db) :
    QRConsistent (reverseState db cid reason c) := by
  intro kv hkv
  rw [reverseState_qrCodes] at hkv
  rcases List.mem_map.1 hkv with ⟨kv0, hkv0, rfl⟩
  have h0 := h kv0 hkv0
  rw [reverseState_claims]
  rcases hk : kv0.1 == c.qrCodeId with _ | _
  · have hne : (c.qrCodeId == kv0.1) = false := by
      simp only [beq_eq_false_iff_ne] at hk ⊢
      exact fun e => hk e.symm
    rw [if_neg (by simp [hk])]
    have hcount := countClaims_reverseFirst
      (fun x => x.qrCodeId == kv0.1 && nonReversed x) cid reason db.claims c hc
    simp only [flipClaim_qrCodeId, nonReversed_flipClaim, hne, Bool.false_and,
      Bool.and_false, Bool.false_eq_true, if_false, Nat.add_zero] at hcount
    rw [hcount]
    exact h0
  · have heq : kv0.1 = c.qrCodeId := by simpa using hk
    have hbe : (c.qrCodeId == kv0.1) = true := by simp [heq]
    rw [if_pos (rfl : (true : Bool) = true)]
    have hcount := countClaims_reverseFirst
      (fun x => x.qrCodeId == kv0.1 && nonReversed x) cid reason db.claims c hc
    simp only [flipClaim_qrCodeId, nonReversed_flipClaim, hbe,
      nonReversed_of_status c hst, Bool.and_false, Bool.and_true,
      Bool.false_eq_true, if_false, if_true, Nat.add_zero] at hcount
    dsimp only
    omega

lemma userConsistent_success (db : DB) (uid qid : Nat) (qr : QRCode)
    (reward : Reward) (h : UserConsistent db) :
    UserConsistent (successState db uid qid qr reward) := by
  intro kv hkv
  rw [successState_users] at hkv
  rw [successState_claims, sumClaims_append]
  rcases hu : db.users.find? (fun kv => kv.1 == uid) with _ | ⟨k, u⟩
  · rw [applyPreSaveHook_users_none db uid qid qr.rewardId reward.points db.now hu]
      at hkv
    have h0 := h kv hkv
    have hne : (kv.1 == uid) = false := by
      have := List.find?_eq_none.mp hu kv hkv
      simpa using this
    have hne2 : (uid == kv.1) = false := by
      simp only [beq_eq_false_iff_ne] at hne ⊢
      exact fun e => hne e.symm
    have hind : ((fun c => c.userId == kv.1 && nonReversed c)
        (newClaimOf db uid qid qr reward)) = false := by
      simp only [newClaimOf, hne2, Bool.false_and]
    simp only [hind, Bool.false_eq_true, if_false, Nat.add_zero]
    exact h0
  · rw [applyPreSaveHook_users_some db uid qid qr.rewardId reward.points db.now
      k u hu] at hkv
    rcases List.mem_map.1 hkv with ⟨kv0, hkv0, rfl⟩
    have h0 := h kv0 hkv0
    have hk2 := List.find?_some hu
    have hkeq : k = uid := by simpa using hk2
    have hmem : (k, u) ∈ db.users := List.mem_of_find?_eq_some hu
    have hu0 := h (k, u) hmem
    rcases hk : kv0.1 == uid with _ | _
    · have hne2 : (uid == kv0.1) = false := by
        simp only [beq_eq_false_iff_ne] at hk ⊢
        exact fun e => hk e.symm
      rw [if_neg (by simp [hk])]
      have hind : ((fun c => c.userId == kv0.1 && nonReversed c)
          (newClaimOf db uid qid qr reward)) = false := by
        simp only [newClaimOf, hne2, Bool.false_and]
      simp only [hind, Bool.false_eq_true, if_false, Nat.add_zero]
      exact h0
    · have heq : kv0.1 = uid := by simpa using hk
      rw [if_pos (rfl : (true : Bool) = true)]
      have hu2 : u.points =
          sumClaims (fun c => c.userId == uid && nonReversed c) db.claims := by
        simp only [← hkeq]
        simpa using hu0
      have hindq : ((newClaimOf db uid qid qr reward).userId == uid
          && nonReversed (newClaimOf db uid qid qr reward)) = true := by
        simp [newClaimOf, nonReversed]
      simp only [heq, hindq, if_true]
      dsimp only [newClaimOf]
      omega

lemma userConsistent_reverse (db : DB) (cid : Nat) (reason : Option String)
    (c : Claim) (hc : db.claims.find? (fun x => x.id == cid) = some c)
    (hst : (c.status == ClaimStatus.reversed) = false)
    (h : UserConsistent db) :
    UserConsistent (reverseState db cid reason c) := by
  intro kv hkv
  rw [reverseState_claims]
  rcases hu : db.users.find? (fun kv => kv.1 == c.userId) with _ | ⟨k, u⟩
  · have husers : (reverseState db cid reason c).users = db.users := by
      simp only [reverseState, hu]
    rw [husers] at hkv
    have h0 := h kv hkv
    have hne : (kv.1 == c.userId) = false := by
      have := List.find?_eq_none.mp hu kv hkv
      simpa using this
    have hne2 : (c.userId == kv.1) = false := by
      simp only [beq_eq_false_iff_ne] at hne ⊢
      exact fun e => hne e.symm
    have hsum := sumClaims_reverseFirst
      (fun x => x.userId == kv.1 && nonReversed x) cid reason db.claims c hc
    simp only [flipClaim_userId, nonReversed_flipClaim, hne2, Bool.false_and,
      Bool.and_false, Bool.false_eq_true, if_false, Nat.add_zero] at hsum
    rw [hsum]
    exact h0
  · have husers : (reverseState db cid reason c).users
        = db.users.map (fun kv =>
            if kv.1 == c.userId then
              (kv.1, { u with points := u.points - c.pointsAwarded,
                              ecoLevel :=
                                updateEcoLevelPoints (u.points - c.pointsAwarded) })
            else kv) := by
      simp only [reverseState, hu]
    rw [husers] at hkv
    rcases List.mem_map.1 hkv with ⟨kv0, hkv0, rfl⟩
    have h0 := h kv0 hkv0
    have hk2 := List.find?_some hu
    have hkeq : k = c.userId := by simpa using hk2
    have hmem : (k, u) ∈ db.users := List.mem_of_find?_eq_some hu
    have hu0 := h (k, u) hmem
    rcases hk : kv0.1 == c.userId with _ | _
    · have hne2 : (c.userId == kv0.1) = false := by
        simp only [beq_eq_false_iff_ne] at hk ⊢
        exact fun e => hk e.symm
      rw [if_neg (by simp [hk])]
      have hsum := sumClaims_reverseFirst
        (fun x => x.userId == kv0.1 && nonReversed x) cid reason db.claims c hc
      simp only [flipClaim_userId, nonReversed_flipClaim, hne2, Bool.false_and,
        Bool.and_false, Bool.false_eq_true, if_false, Nat.add_zero] at hsum
      rw [hsum]
      exact h0
    · have heq : kv0.1 = c.userId := by simpa using hk
      rw [if_pos (rfl : (true : Bool) = true)]
      have hu2 : u.points =
          sumClaims (fun x => x.userId == c.userId && nonReversed x) db.claims := by
        simp only [← hkeq]
        simpa using hu0
      have hsum := sumClaims_reverseFirst
        (fun x => x.userId == c.userId && nonReversed x) cid reason db.claims c hc
      simp only [flipClaim_userId, flipClaim_pointsAwarded, nonReversed_flipClaim,
        nonReversed_of_status c hst, Bool.and_false, Bool.and_true,
        Bool.false_eq_true, if_false, Nat.add_zero, beq_self_eq_true,
        Bool.true_and, if_true] at hsum
      simp only [heq]
      omega

lemma rewardConsistent_step (db : DB) (op : Op) (h : RewardConsistent db)
    (hok : (applyOp db op).2 = true) : RewardConsistent (stepOp db op) := by
  cases op with
  | claim uid code =>
    rcases claimRewardOp_shape db uid code with heq |
      ⟨qid, qr, reward, hfind, hrw, hcase⟩
    · rw [stepOp_claim, heq]; exact h
    · rcases hcase with ⟨hdup, _⟩ | ⟨_, hsucc⟩
      · exfalso
        simp only [applyOp, hdup] at hok
        simp at hok
      · rw [stepOp_claim, hsucc]
        exact rewardConsistent_success db uid qid qr reward h
  | reverse cid reason =>
    rcases reverseClaimOp_shape db cid reason with heq | ⟨c, hc, hst, heff⟩
    · rw [stepOp_reverse, heq]; exact h
    · rw [stepOp_reverse, heff]
      exact rewardConsistent_reverse db cid reason c hc hst h

lemma qrConsistent_step (db : DB) (op : Op) (h : QRConsistent db)
    (hok : (applyOp db op).2 = true) : QRConsistent (stepOp db op) := by
  cases op with
  | claim uid code =>
    rcases claimRewardOp_shape db uid code with heq |
      ⟨qid, qr, reward, hfind, hrw, hcase⟩
    · rw [stepOp_claim, heq]; exact h
    · rcases hcase with ⟨hdup, _⟩ | ⟨_, hsucc⟩
      · exfalso
        simp only [applyOp, hdup] at hok
        simp at hok
      · rw [stepOp_claim, hsucc]
        have hqr : (qid, qr) ∈ db.qrCodes := by
          have := List.mem_of_find?_eq_some hfind
          exact this
        exact qrConsistent_success db uid qid qr reward hqr h
  | reverse cid reason =>
    rcases reverseClaimOp_shape db cid reason with heq | ⟨c, hc, hst, heff⟩
    · rw [stepOp_reverse, heq]; exact h
    · rw [stepOp_reverse, heff]
      exact qrConsistent_reverse db cid reason c hc hst h

lemma userConsistent_step (db : DB) (op : Op) (h : UserConsistent db)
    (hok : (applyOp db op).2 = true) : UserConsistent (stepOp db op) := by
  cases op with
  | claim uid code =>
    rcases claimRewardOp_shape db uid code with heq |
      ⟨qid, qr, reward, hfind, hrw, hcase⟩
    · rw [stepOp_claim, heq]; exact h
    · rcases hcase with ⟨hdup, _⟩ | ⟨_, hsucc⟩
      · exfalso
        simp only [applyOp, hdup] at hok
        simp at hok
      · rw [stepOp_claim, hsucc]
        exact userConsistent_success db uid qid qr reward h
  | reverse cid reason =>
    rcases reverseClaimOp_shape db cid reason with heq | ⟨c, hc, hst, heff⟩
    · rw [stepOp_reverse, heq]; exact h
    · rw [stepOp_reverse, heff]
      exact userConsistent_reverse db cid reason c hc hst h

/-- The witness scenario: one claim followed by its reversal, a run in
which no insert aborts. -/
def exOkOps : List Op := [.claim 0 "qr1", .reverse 0 Option.none]

/-- C1 (amended): for every reward, currentClaims equals the number of
non-reversed claims referencing that reward after any finite sequence of
claim-creation and claim-reversal operations of the protocol in which no
claim insert aborts on the unique (userId, qrCodeId) index, starting from
any state satisfying the invariant. The unrestricted claim is refuted by
C1_counterexample: re-claiming a QR code whose earlier claim was reversed
runs the pre-save hook, which increments currentClaims, and then fails
the insert, leaving the counter ahead of the ledger. -/
theorem C1_rewardCurrentClaims_invariant (db : DB) (ops : List Op)
    (h : RewardConsistent db) (hok : (runOps db ops).2 = true) :
    RewardConsistent (runOps db ops).1 :=
  runOps_preserves RewardConsistent rewardConsistent_step ops db h hok

/-- C1 counterexample: from a consistent one-reward state, the protocol
sequence claim, reverse, claim again on the same QR code ends with
reward.currentClaims = 1 while no non-reversed claim exists, refuting the
invariant as originally stated. -/
theorem C1_counterexample :
    RewardConsistent exDB ∧ ¬ RewardConsistent (runOps exDB exOps).1 := by
  constructor
  · decide
  · decide

/-- C1 witness: the amended invariant applied to a concrete abort-free
claim then reversal run. -/
theorem C1_witness :
    RewardConsistent exDB ∧ (runOps exDB exOkOps).2 = true ∧
      RewardConsistent (runOps exDB exOkOps).1 :=
  ⟨by decide, by decide,
    C1_rewardCurrentClaims_invariant exDB exOkOps (by decide) (by decide)⟩

/-- C2 (amended): for every user, points equal the sum of pointsAwarded
over that user's non-reversed claims after any finite sequence of
claim-creation and claim-reversal operations, including sequences with
multiple reversals, provided no claim insert aborts on the unique
(userId, qrCodeId) index. Under this invariant the floor in the reversal
deduction never truncates, so repeated reversals deduct exactly. The
unrestricted claim is refuted by C2_counterexample. -/
theorem C2_userPoints_invariant (db : DB) (ops : List Op)
    (h : UserConsistent db) (hok : (runOps db ops).2 = true) :
    UserConsistent (runOps db ops).1 :=
  runOps_preserves UserConsistent userConsistent_step ops db h hok

/-- C2 counterexample: the claim, reverse, re-claim sequence credits the
user 10 points in the pre-save hook of the re-claim before the insert
aborts, ending with user.points = 10 while the sum over non-reversed
claims is 0. -/
theorem C2_counterexample :
    UserConsistent exDB ∧ ¬ UserConsistent (runOps exDB exOps).1 := by
  constructor
  · decide
  · decide

/-- C2 witness: the amended invariant applied to a concrete abort-free
claim then reversal run. -/
theorem C2_witness :
    UserConsistent exDB ∧ (runOps exDB exOkOps).2 = true ∧
      UserConsistent (runOps exDB exOkOps).1 :=
  ⟨by decide, by decide,
    C2_userPoints_invariant exDB exOkOps (by decide) (by decide)⟩

/-- C3 (amended): for every QR code, successfulClaims equals the number
of non-reversed claims referencing that code after any finite sequence of
protocol operations in which no claim insert aborts on the unique
(userId, qrCodeId) index; in particular a single successful claim moves
the counter by exactly one, because the recordSuccessfulClaim save of the
stale snapshot overwrites the increment already applied by the pre-save
hook. The unrestricted claim is refuted by C3_counterexample. -/
theorem C3_qrSuccessfulClaims_invariant (db : DB) (ops : List Op)
    (h : QRConsistent db) (hok : (runOps db ops).2 = true) :
    QRConsistent (runOps db ops).1 :=
  runOps_preserves QRConsistent qrConsistent_step ops db h hok

/-- C3 counterexample: the claim, reverse, re-claim sequence leaves
qrCode.successfulClaims = 1 via the pre-save hook of the aborted
re-claim while no non-reversed claim references the code. -/
theorem C3_counterexample :
    QRConsistent exDB ∧ ¬ QRConsistent (runOps exDB exOps).1 := by
  constructor
  · decide
  · decide

/-- C3 witness: the amended invariant applied to a concrete abort-free
claim then reversal run. -/
theorem C3_witness :
    QRConsistent exDB ∧ (runOps exDB exOkOps).2 = true ∧
      QRConsistent (runOps exDB exOkOps).1 :=
  ⟨by decide, by decide,
    C3_qrSuccessfulClaims_invariant exDB exOkOps (by decide) (by decide)⟩

/-- C7 (confirmed): the availability check of isValidForScanning equals
the specification's ordered list of seven checks with first-failure-wins
short-circuit and the success verdict "QR code is valid"; the model
function is pure, so no state is mutated. -/
theorem C7_availability_check_order (qr : QRCode) (reward : Option Reward)
    (partner : Option Partner) (now : Nat) :
    isValidForScanning qr reward partner now
      = availabilitySpec qr reward partner now := by
  rcases reward with _ | r <;> rcases partner with _ | p <;>
    simp only [isValidForScanning, availabilitySpec, firstFailure,
      Option.isSome, Option.map, Option.getD] <;>
    split_ifs <;> simp_all

lemma updateEcoLevelPoints_eq_levelFor (p : Nat) :
    updateEcoLevelPoints p = levelFor p := by
  unfold updateEcoLevelPoints levelFor
  split_ifs <;> first | rfl | omega

lemma find?_user_update (l : List (Nat × User)) (uid k1 : Nat) (u' : User)
    (p' : Nat × User)
    (h : (l.map (fun kv => if kv.1 == uid then (kv.1, u') else kv)).find?
        (fun kv => kv.1 == k1) = some p') :
    (∃ p0, l.find? (fun kv => kv.1 == k1) = some p0 ∧ p'.2 = p0.2)
      ∨ p'.2 = u' := by
  rw [find?_mapUpdate l uid (fun kv => (kv.1, u')) (fun kv => rfl) k1] at h
  rcases hf : l.find? (fun kv => kv.1 == k1) with _ | p0
  · rw [hf] at h; simp at h
  · rw [hf] at h
    simp only [Option.map] at h
    rcases hk : p0.1 == uid with _ | _
    · left
      refine ⟨p0, hf, ?_⟩
      simp only [hk, Bool.false_eq_true, if_false] at h
      rw [← Option.some.inj h]
    · right
      simp only [hk, if_true] at h
      rw [← Option.some.inj h]

lemma claim_users_cases (db : DB) (uid : Nat) (code : String) :
    (claimRewardOp db uid code).2.users = db.users ∨
    ∃ qid rid pts,
      (claimRewardOp db uid code).2.users
        = (applyPreSaveHook db uid qid rid pts db.now).users := by
  rcases claimRewardOp_shape db uid code with heq |
    ⟨qid, qr, reward, _, _, hcase⟩
  · left; rw [heq]
  · right
    rcases hcase with ⟨_, hdup⟩ | ⟨_, hsucc⟩
    · exact ⟨qid, qr.rewardId, reward.points, by rw [hdup]⟩
    · exact ⟨qid, qr.rewardId, reward.points, by rw [hsucc]; rfl⟩

lemma reverseState_users_none (db : DB) (cid : Nat) (reason : Option String)
    (c : Claim)
    (hu : db.users.find? (fun kv => kv.1 == c.userId) = Option.none) :
    (reverseState db cid reason c).users = db.users := by
  simp only [reverseState, hu]

lemma reverseState_users_some (db : DB) (cid : Nat) (reason : Option String)
    (c : Claim) (k : Nat) (u : User)
    (hu : db.users.find? (fun kv => kv.1 == c.userId) = some (k, u)) :
    (reverseState db cid reason c).users
      = db.users.map (fun kv =>
          if kv.1 == c.userId then
            (kv.1, { u with points := u.points - c.pointsAwarded,
                            ecoLevel :=
                              updateEcoLevelPoints (u.points - c.pointsAwarded) })
          else kv) := by
  simp only [reverseState, hu]

/-- C8 (confirmed): after any operation of the claim subsystem that
changes a user's points (claim creation or claim reversal), that user's
ecoLevel equals levelFor of the new points, where levelFor is the
specification's tier table. -/
theorem C8_ecoLevel_invariant (db : DB) (op : Op) (k1 : Nat)
    (p0 p1 : Nat × User)
    (hb : db.users.find? (fun kv => kv.1 == k1) = some p0)
    (ha : (stepOp db op).users.find? (fun kv => kv.1 == k1) = some p1)
    (hch : p1.2.points ≠ p0.2.points) :
    p1.2.ecoLevel = levelFor p1.2.points := by
  have key : (∃ q, db.users.find? (fun kv => kv.1 == k1) = some q ∧ p1.2 = q.2)
      ∨ p1.2.ecoLevel = updateEcoLevelPoints p1.2.points := by
    cases op with
    | claim uid code =>
      rcases claim_users_cases db uid code with hsame | ⟨qid, rid, pts, husers⟩
      · rw [stepOp_claim, hsame] at ha
        left; exact ⟨p1, ha, rfl⟩
      · rw [stepOp_claim, husers] at ha
        rcases hu : db.users.find? (fun kv => kv.1 == uid) with _ | ⟨k, u⟩
        · rw [applyPreSaveHook_users_none db uid qid rid pts db.now hu] at ha
          left; exact ⟨p1, ha, rfl⟩
        · rw [applyPreSaveHook_users_some db uid qid rid pts db.now k u hu] at ha
          rcases find?_user_update _ _ _ _ _ ha with ⟨q, hq, hpe⟩ | hpe
          · left; exact ⟨q, hq, hpe⟩
          · right; rw [hpe]
    | reverse cid reason =>
      rcases reverseClaimOp_shape db cid reason with heq | ⟨c, hc, hst, heff⟩
      · rw [stepOp_reverse, heq] at ha
        left; exact ⟨p1, ha, rfl⟩
      · rw [stepOp_reverse, heff] at ha
        rcases hu : db.users.find? (fun kv => kv.1 == c.userId) with _ | ⟨k, u⟩
        · rw [reverseState_users_none db cid reason c hu] at ha
          left; exact ⟨p1, ha, rfl⟩
        · rw [reverseState_users_some db cid reason c k u hu] at ha
          rcases find?_user_update _ _ _ _ _ ha with ⟨q, hq, hpe⟩ | hpe
          · left; exact ⟨q, hq, hpe⟩
          · right; rw [hpe]
  rcases key with ⟨q, hq, hpe⟩ | hlev
  · rw [hb] at hq
    exact absurd (by rw [hpe, Option.some.inj hq]) hch
  · rw [hlev, updateEcoLevelPoints_eq_levelFor]

/-- C8 witness: claiming the 10-point reward from the reference state
moves user 0 from 0 to 10 points with ecoLevel beginner, which is
levelFor 10. -/
theorem C8_witness :
    (stepOp exDB (Op.claim 0 "qr1")).users.find? (fun kv => kv.1 == 0)
        = some (0, { name := "u", points := 10, ecoLevel := .beginner,
                     claimedRewards := [(0, 0, 10, 5)] }) ∧
    ({ name := "u", points := 10, ecoLevel := EcoLevel.beginner,
       claimedRewards := [(0, 0, 10, 5)] } : User).ecoLevel
      = levelFor ({ name := "u", points := 10, ecoLevel := EcoLevel.beginner,
                    claimedRewards := [(0, 0, 10, 5)] } : User).points :=
  ⟨by decide,
    C8_ecoLevel_invariant exDB (Op.claim 0 "qr1") 0
      (0, { name := "u", points := 0, ecoLevel := .beginner,
            claimedRewards := [] })
      (0, { name := "u", points := 10, ecoLevel := .beginner,
            claimedRewards := [(0, 0, 10, 5)] })
      (by decide) (by decide) (by decide)⟩

lemma find?_reverseFirstClaim (cid : Nat) (reason : Option String)
    (l : List Claim) :
    (reverseFirstClaim cid reason l).find? (fun x => x.id == cid)
      = (l.find? (fun x => x.id == cid)).map (flipClaim reason) := by
  induction l with
  | nil => rfl
  | cons x xs ih =>
    rcases hx : x.id == cid with _ | _
    · simp only [reverseFirstClaim, hx, Bool.false_eq_true, if_false,
        List.find?_cons, ih]
    · simp only [reverseFirstClaim, hx, if_true]
      have hfx : ((flipClaim reason x).id == cid) = true := by
        rw [flipClaim_id]; exact hx
      simp only [List.find?_cons, hfx, hx, Option.map]

/-- C6 (confirmed): reversing a claim whose status is not reversed
reports success and deducts and decrements exactly once: the claiming
user's points become points minus pointsAwarded floored at zero with the
eco level recomputed, the QR code's successfulClaims and the reward's
currentClaims each drop by one, and the claim record becomes reversed;
a second reversal request for the same claim is then rejected with the
already-reversed client error and changes no state at all. -/
theorem C6_double_reversal (db : DB) (cid : Nat)
    (reason reason2 : Option String) (c : Claim)
    (hc : db.claims.find? (fun x => x.id == cid) = some c)
    (hnr : (c.status == ClaimStatus.reversed) = false) :
    (reverseClaimOp db cid reason).1 = .reversedOk ∧
    ((reverseClaimOp db cid reason).2.users.find? (fun kv => kv.1 == c.userId)
       = (db.users.find? (fun kv => kv.1 == c.userId)).map
           (fun kv => (kv.1, { kv.2 with
               points := kv.2.points - c.pointsAwarded,
               ecoLevel := updateEcoLevelPoints (kv.2.points - c.pointsAwarded) })) ∧
     (reverseClaimOp db cid reason).2.qrCodes.find? (fun kv => kv.1 == c.qrCodeId)
       = (db.qrCodes.find? (fun kv => kv.1 == c.qrCodeId)).map
           (fun kv => (kv.1, { kv.2 with
               successfulClaims := kv.2.successfulClaims - 1 })) ∧
     (reverseClaimOp db cid reason).2.rewards.find? (fun kv => kv.1 == c.rewardId)
       = (db.rewards.find? (fun kv => kv.1 == c.rewardId)).map
           (fun kv => (kv.1, { kv.2 with
               currentClaims := kv.2.currentClaims - 1 })) ∧
     (reverseClaimOp db cid reason).2.claims.find? (fun x => x.id == cid)
       = some (flipClaim reason c)) ∧
    ((reverseClaimOp (reverseClaimOp db cid reason).2 cid reason2).1
        = .alreadyReversed ∧
     (reverseClaimOp (reverseClaimOp db cid reason).2 cid reason2).2
        = (reverseClaimOp db cid reason).2) := by
  have hout : (reverseClaimOp db cid reason).1 = .reversedOk := by
    simp only [reverseClaimOp, hc, hnr, Bool.false_eq_true, if_false]
  have heff : (reverseClaimOp db cid reason).2 = reverseState db cid reason c := by
    simp only [reverseClaimOp, hc, hnr, Bool.false_eq_true, if_false]
  have hclaims : (reverseClaimOp db cid reason).2.claims.find?
      (fun x => x.id == cid) = some (flipClaim reason c) := by
    rw [heff, reverseState_claims, find?_reverseFirstClaim, hc, Option.map]
  refine ⟨hout, ⟨?_, ?_, ?_, hclaims⟩, ?_, ?_⟩
  · rw [heff]
    rcases hu : db.users.find? (fun kv => kv.1 == c.userId) with _ | ⟨k, u⟩
    · rw [reverseState_users_none db cid reason c hu,  hu]
      rfl
    · rw [reverseState_users_some db cid reason c k u hu,
        find?_mapUpdate db.users c.userId
          (fun kv => (kv.1, { u with
              points := u.points - c.pointsAwarded,
              ecoLevel := updateEcoLevelPoints (u.points - c.pointsAwarded) }))
          (fun kv => rfl) c.userId, hu]
      have hk : (k == c.userId) = true := by
        have := List.find?_some hu
        simpa using this
      simp only [Option.map, hk, if_true]
  · rw [heff, reverseState_qrCodes,
      find?_mapUpdate db.qrCodes c.qrCodeId
        (fun kv => (kv.1, { kv.2 with
            successfulClaims := kv.2.successfulClaims - 1 }))
        (fun kv => rfl) c.qrCodeId]
    rcases hq : db.qrCodes.find? (fun kv => kv.1 == c.qrCodeId) with _ | p0
    · rw [hq]; rfl
    · have hk : (p0.1 == c.qrCodeId) = true := by
        have := List.find?_some hq
        simpa using this
      rw [hq]
      simp only [Option.map, hk, if_true]
  · rw [heff, reverseState_rewards,
      find?_mapUpdate db.rewards c.rewardId
        (fun kv => (kv.1, { kv.2 with
            currentClaims := kv.2.currentClaims - 1 }))
        (fun kv => rfl) c.rewardId]
    rcases hq : db.rewards.find? (fun kv => kv.1 == c.rewardId) with _ | p0
    · rw [hq]; rfl
    · have hk : (p0.1 == c.rewardId) = true := by
        have := List.find?_some hq
        simpa using this
      rw [hq]
      simp only [Option.map, hk, if_true]
  · rw [heff]
    rw [heff] at hclaims
    simp only [reverseClaimOp, hclaims, flipClaim_status, beq_self_eq_true,
      if_true]
  · rw [heff]
    rw [heff] at hclaims
    simp only [reverseClaimOp, hclaims, flipClaim_status, beq_self_eq_true,
      if_true]

/-- The state right after the single successful claim of the reference
scenario. -/
def exDB1 : DB := stepOp exDB (Op.claim 0 "qr1")

/-- The claim record that claim created. -/
def exClaim : Claim :=
  { id := 0, userId := 0, qrCodeId := 0, partnerId := 0, rewardId := 0,
    pointsAwarded := 10, status := .completed, claimedAt := 5,
    notes := Option.none }

/-- C6 witness: in the reference scenario the first reversal succeeds and
the second reversal of the same claim is rejected. -/
theorem C6_witness :
    exDB1.claims.find? (fun x => x.id == 0) = some exClaim ∧
    (exClaim.status == ClaimStatus.reversed) = false ∧
    (reverseClaimOp (reverseClaimOp exDB1 0 (some "fraudulent")).2 0
        (some "again")).1 = .alreadyReversed :=
  ⟨by decide, by decide,
    (C6_double_reversal exDB1 0 (some "fraudulent") (some "again") exClaim
      (by decide) (by decide)).2.2.1⟩

lemma countedStatus_eq_nonReversed (c : Claim)
    (h : c.status ≠ ClaimStatus.failed) : countedStatus c = nonReversed c := by
  cases hs : c.status <;> simp_all [countedStatus, nonReversed]

lemma hasUserClaimedQR_eq_nonReversed (l : List Claim) (uid qid : Nat)
    (hnf : ∀ c ∈ l, c.status ≠ ClaimStatus.failed) :
    hasUserClaimedQR l uid qid
      = l.find? (fun c => c.userId == uid && c.qrCodeId == qid
          && nonReversed c) := by
  unfold hasUserClaimedQR
  exact find?_congr _ _ l (fun c hc => by
    rw [countedStatus_eq_nonReversed c (hnf c hc)])

lemma getUserClaimCount_eq_nonReversed (l : List Claim) (uid rid : Nat)
    (hnf : ∀ c ∈ l, c.status ≠ ClaimStatus.failed) :
    getUserClaimCount l uid rid
      = countClaims (fun c => c.userId == uid && c.rewardId == rid
          && nonReversed c) l := by
  unfold getUserClaimCount
  exact countClaims_congr _ _ l (fun c hc => by
    rw [countedStatus_eq_nonReversed c (hnf c hc)])

lemma claim_rejected_of_cap (db : DB) (uid : Nat) (code : String)
    (qid : Nat) (qr : QRCode) (reward : Reward)
    (hqr : db.qrCodes.find? (fun kv => kv.2.code == code) = some (qid, qr))
    (hrw : (db.rewards.find? (fun kv => kv.1 == qr.rewardId)).map (·.2)
        = some reward)
    (hnf : ∀ c ∈ db.claims, c.status ≠ ClaimStatus.failed)
    (hcap : reward.maxClaimsPerUser ≤
        countClaims (fun c => c.userId == uid && c.rewardId == qr.rewardId
          && nonReversed c) db.claims) :
    isClientError (claimRewardOp db uid code).1 = true ∧
    (claimRewardOp db uid code).2 = db := by
  have hcnt := getUserClaimCount_eq_nonReversed db.claims uid qr.rewardId hnf
  rcases hval : (qrValidation db qr).valid with _ | _
  · constructor <;> simp [claimRewardOp, hqr, hval, isClientError]
  · rcases hdup : hasUserClaimedQR db.claims uid qid with _ | ec
    · have h2 : (decide (getUserClaimCount db.claims uid qr.rewardId
          < reward.maxClaimsPerUser)) = false := by
        rw [decide_eq_false_iff_not]
        omega
      have hquota : canUserClaim reward db.now
          (getUserClaimCount db.claims uid qr.rewardId) = false := by
        unfold canUserClaim
        rw [h2, Bool.and_false]
      constructor <;>
        simp [claimRewardOp, hqr, hval, hdup, hrw, hquota, isClientError]
    · constructor <;> simp [claimRewardOp, hqr, hval, hdup, isClientError]

/-- C5 (confirmed): whenever the requesting user's number of non-reversed
claims for the reward behind the scanned QR code has reached the reward's
maxClaimsPerUser, the claim request is rejected with a 400 client error
(availability failure, duplicate, or the quota error) and the state is
unchanged; the guard is independent of the duplicate-QR check, so a
different QR code of the same reward is rejected as well. Stated for
states whose claims carry protocol statuses (no failed claims, which the
protocol never creates). -/
theorem C5_per_user_cap (db : DB) (uid : Nat) (code : String)
    (qid : Nat) (qr : QRCode) (reward : Reward)
    (hqr : db.qrCodes.find? (fun kv => kv.2.code == code) = some (qid, qr))
    (hrw : (db.rewards.find? (fun kv => kv.1 == qr.rewardId)).map (·.2)
        = some reward)
    (hnf : ∀ c ∈ db.claims, c.status ≠ ClaimStatus.failed)
    (hcap : reward.maxClaimsPerUser ≤
        countClaims (fun c => c.userId == uid && c.rewardId == qr.rewardId
          && nonReversed c) db.claims) :
    isClientError (claimRewardOp db uid code).1 = true ∧
    (claimRewardOp db uid code).2 = db :=
  claim_rejected_of_cap db uid code qid qr reward hqr hrw hnf hcap

/-- C4 (amended): when a non-reversed claim by the same user for the same
QR code exists (protocol statuses assumed, so no failed claims), the
claim request is rejected with a 400 client error and no state changes;
whenever the QR code additionally passes the availability check, the
rejection is the duplicate response carrying the existing claim's
claimedAt and pointsAwarded. The original claim promised that payload
unconditionally, which C4_counterexample refutes: an availability failure
is reported first, without the existing-claim payload. -/
theorem C4_duplicate_rejection (db : DB) (uid : Nat) (code : String)
    (qid : Nat) (qr : QRCode) (ec : Claim)
    (hqr : db.qrCodes.find? (fun kv => kv.2.code == code) = some (qid, qr))
    (hnf : ∀ c ∈ db.claims, c.status ≠ ClaimStatus.failed)
    (hec : db.claims.find? (fun c => c.userId == uid && c.qrCodeId == qid
        && nonReversed c) = some ec) :
    (claimRewardOp db uid code).2 = db ∧
    isClientError (claimRewardOp db uid code).1 = true ∧
    ((qrValidation db qr).valid = true →
      (claimRewardOp db uid code).1
        = .alreadyClaimed ec.claimedAt ec.pointsAwarded) := by
  have hec2 : hasUserClaimedQR db.claims uid qid = some ec := by
    rw [hasUserClaimedQR_eq_nonReversed db.claims uid qid hnf]
    exact hec
  rcases hval : (qrValidation db qr).valid with _ | _
  · refine ⟨?_, ?_, ?_⟩ <;> simp [claimRewardOp, hqr, hval, isClientError]
  · refine ⟨?_, ?_, ?_⟩ <;>
      simp [claimRewardOp, hqr, hval, hec2, isClientError]

/-- The reference state after the claim, with the QR code deactivated
afterwards: a duplicate exists but the availability check fails first. -/
def exDBInactive : DB :=
  { exDB1 with qrCodes := [(0, { code := "qr1", partnerId := 0, rewardId := 0,
                                 isActive := false, successfulClaims := 1 })] }

/-- C4 counterexample: with a non-reversed duplicate on file but the QR
code inactive, the request is rejected with the availability reason, not
with a payload carrying the existing claim's claimedAt and
pointsAwarded, refuting the unconditional payload clause of the claim. -/
theorem C4_counterexample :
    exDBInactive.claims.find? (fun c => c.userId == 0 && c.qrCodeId == 0
        && nonReversed c) = some exClaim ∧
    (claimRewardOp exDBInactive 0 "qr1").1 = .invalid "QR code is inactive" ∧
    (claimRewardOp exDBInactive 0 "qr1").1
      ≠ .alreadyClaimed exClaim.claimedAt exClaim.pointsAwarded :=
  ⟨by decide, by decide, by decide⟩

/-- C4 witness: re-scanning the already claimed active QR code is
rejected with the duplicate payload of the existing claim. -/
theorem C4_witness :
    exDB1.claims.find? (fun c => c.userId == 0 && c.qrCodeId == 0
        && nonReversed c) = some exClaim ∧
    (claimRewardOp exDB1 0 "qr1").1
      = ClaimOutcome.alreadyClaimed exClaim.claimedAt exClaim.pointsAwarded :=
  ⟨by decide,
    (C4_duplicate_rejection exDB1 0 "qr1" 0
      ({ code := "qr1", partnerId := 0, rewardId := 0, isActive := true,
         successfulClaims := 1 }) exClaim (by decide) (by decide)
      (by decide)).2.2 (by decide)⟩

/-- The two-QR reference state after user 0 claimed the first code of the
reward capped at one claim per user. -/
def exDB2a : DB := stepOp exDB2 (Op.claim 0 "qr1")

/-- C5 witness: with the cap met, scanning a different QR code of the
same reward is rejected with a client error and no state change. -/
theorem C5_witness :
    isClientError (claimRewardOp exDB2a 0 "qr2").1 = true ∧
    (claimRewardOp exDB2a 0 "qr2").2 = exDB2a :=
  C5_per_user_cap exDB2a 0 "qr2" 1
    ({ code := "qr2", partnerId := 0, rewardId := 0, isActive := true,
       successfulClaims := 0 })
    ({ partnerId := 0, points := 10, maxClaimsPerUser := 1,
       totalMaxClaims := Option.none, currentClaims := 1,
       expiryDate := Option.none, isActive := true })
    (by decide) (by decide) (by decide) (by decide)

lemma mem_reverseFirstClaim (cid : Nat) (reason : Option String)
    (l : List Claim) (c' : Claim) (h : c' ∈ reverseFirstClaim cid reason l) :
    c' ∈ l ∨ ∃ c0 ∈ l, c' = flipClaim reason c0 := by
  induction l with
  | nil => simp [reverseFirstClaim] at h
  | cons x xs ih =>
    rcases hx : x.id == cid with _ | _
    · simp only [reverseFirstClaim, hx, Bool.false_eq_true, if_false] at h
      rcases List.mem_cons.mp h with rfl | hmem
      · left; exact List.mem_cons_self _ _
      · rcases ih hmem with h1 | ⟨c0, hc0, rfl⟩
        · left; exact List.mem_cons_of_mem _ h1
        · right; exact ⟨c0, List.mem_cons_of_mem _ hc0, rfl⟩
    · simp only [reverseFirstClaim, hx, if_true] at h
      rcases List.mem_cons.mp h with rfl | hmem
      · right; exact ⟨x, List.mem_cons_self _ _, rfl⟩
      · left; exact List.mem_cons_of_mem _ hmem

/-- The quota situation the specification's QuotaExceeded error speaks
about: no failed-status claims (the protocol never produces them), the
reward is on file with the given per-user cap, and the user's number of
non-reversed claims for it has reached that cap. -/
def CapReached (db : DB) (uid rid maxC : Nat) : Prop :=
  (∀ c ∈ db.claims, c.status ≠ ClaimStatus.failed) ∧
  (∃ reward', (db.rewards.find? (fun kv => kv.1 == rid)).map (·.2)
      = some reward' ∧ reward'.maxClaimsPerUser = maxC) ∧
  maxC ≤ capCount db uid rid

lemma find?_rewards_update (l : List (Nat × Reward)) (rid k0 : Nat)
    (g : Reward → Reward) (hg : ∀ r, (g r).maxClaimsPerUser = r.maxClaimsPerUser)
    (reward : Reward)
    (h : (l.find? (fun kv => kv.1 == rid)).map (·.2) = some reward) :
    ∃ reward', ((l.map (fun kv => if kv.1 == k0 then (kv.1, g kv.2) else kv)).find?
        (fun kv => kv.1 == rid)).map (·.2) = some reward'
      ∧ reward'.maxClaimsPerUser = reward.maxClaimsPerUser := by
  rw [find?_mapUpdate l k0 (fun kv => (kv.1, g kv.2)) (fun kv => rfl) rid]
  rcases hf : l.find? (fun kv => kv.1 == rid) with _ | p0
  · rw [hf] at h; simp at h
  · rw [hf] at h
    rw [hf]
    simp only [Option.map] at h ⊢
    rcases hk : p0.1 == k0 with _ | _
    · refine ⟨p0.2, ?_, by rw [← Option.some.inj h]⟩
      simp only [hk, Bool.false_eq_true, if_false]
    · refine ⟨g p0.2, ?_, by rw [hg, ← Option.some.inj h]⟩
      simp only [hk, if_true]

lemma capReached_step (db : DB) (uid rid maxC : Nat) (op : Op)
    (h : CapReached db uid rid maxC)
    (hcond : (match op with
      | Op.reverse cid _ =>
        (match db.claims.find? (fun x => x.id == cid) with
         | some c => !(c.userId == uid && c.rewardId == rid)
         | Option.none => true)
      | Op.claim _ _ => true) = true) :
    CapReached (stepOp db op) uid rid maxC := by
  rcases h with ⟨hnf, ⟨reward0, hrw0, hmax0⟩, hcap⟩
  cases op with
  | claim u2 code =>
    rcases claimRewardOp_shape db u2 code with heq |
      ⟨qid, qr, reward, _, _, hcase⟩
    · rw [stepOp_claim, heq]; exact ⟨hnf, ⟨reward0, hrw0, hmax0⟩, hcap⟩
    · have hcore : ∀ dbx : DB,
          dbx.rewards = (applyPreSaveHook db u2 qid qr.rewardId
              reward.points db.now).rewards →
          (∃ reward', (dbx.rewards.find? (fun kv => kv.1 == rid)).map (·.2)
              = some reward' ∧ reward'.maxClaimsPerUser = maxC) := by
        intro dbx hx
        rw [hx, applyPreSaveHook_rewards]
        rcases find?_rewards_update db.rewards rid qr.rewardId
            (fun r => { r with currentClaims := r.currentClaims + 1 })
            (fun r => rfl) reward0 hrw0 with ⟨reward', h1, h2⟩
        exact ⟨reward', h1, by rw [h2, hmax0]⟩
      rcases hcase with ⟨_, hdup⟩ | ⟨_, hsucc⟩
      · rw [stepOp_claim, hdup]
        refine ⟨?_, hcore _ rfl, ?_⟩
        · intro c hc
          rw [applyPreSaveHook_claims] at hc
          exact hnf c hc
        · unfold capCount
          rw [applyPreSaveHook_claims]
          exact hcap
      · rw [stepOp_claim, hsucc]
        refine ⟨?_, hcore _ rfl, ?_⟩
        · intro c hc
          rw [successState_claims] at hc
          rcases List.mem_append.mp hc with hold | hnew
          · exact hnf c hold
          · simp only [List.mem_singleton] at hnew
            subst hnew
            simp [newClaimOf]
        · unfold capCount at hcap ⊢
          rw [successState_claims, countClaims_append]
          omega
  | reverse cid reason =>
    rcases hc : db.claims.find? (fun x => x.id == cid) with _ | c
    · have : stepOp db (Op.reverse cid reason) = db := by
        rw [stepOp_reverse]
        simp [reverseClaimOp, hc]
      rw [this]; exact ⟨hnf, ⟨reward0, hrw0, hmax0⟩, hcap⟩
    · simp only [hc] at hcond
      rcases hst : c.status == ClaimStatus.reversed with _ | _
      · have heff : stepOp db (Op.reverse cid reason)
            = reverseState db cid reason c := by
          rw [stepOp_reverse]
          simp [reverseClaimOp, hc, hst]
        rw [heff]
        have hnotur : (c.userId == uid && c.rewardId == rid) = false := by
          rcases hb : (c.userId == uid && c.rewardId == rid) with _ | _
          · rfl
          · rw [hb] at hcond
            simp at hcond
        refine ⟨?_, ?_, ?_⟩
        · intro c' hc'
          rw [reverseState_claims] at hc'
          rcases mem_reverseFirstClaim cid reason db.claims c' hc' with
            hold | ⟨c0, _, rfl⟩
          · exact hnf c' hold
          · simp [flipClaim_status]
        · rw [reverseState_rewards]
          rcases find?_rewards_update db.rewards rid c.rewardId
              (fun r => { r with currentClaims := r.currentClaims - 1 })
              (fun r => rfl) reward0 hrw0 with ⟨reward', h1, h2⟩
          exact ⟨reward', h1, by rw [h2, hmax0]⟩
        · have hcount := countClaims_reverseFirst
            (fun x => x.userId == uid && x.rewardId == rid && nonReversed x)
            cid reason db.claims c hc
          have hpc : (c.userId == uid && (c.rewardId == rid && nonReversed c))
              = false := by
            rcases ha : c.userId == uid with _ | _
            · rw [Bool.false_and]
            · rcases hb : c.rewardId == rid with _ | _
              · rw [Bool.false_and, Bool.and_false]
              · rw [ha, hb] at hnotur
                simp at hnotur
          have hpf : ((flipClaim reason c).userId == uid
              && ((flipClaim reason c).rewardId == rid
                && nonReversed (flipClaim reason c))) = false := by
            rw [flipClaim_userId, flipClaim_rewardId, nonReversed_flipClaim,
              Bool.and_false, Bool.and_false]
          simp only [Bool.and_assoc] at hcount
          simp only [hpc, hpf, Bool.false_eq_true, if_false, Nat.add_zero]
            at hcount
          unfold capCount at hcap ⊢
          rw [reverseState_claims]
          simp only [Bool.and_assoc]
          simp only [Bool.and_assoc] at hcap
          omega
      · have : stepOp db (Op.reverse cid reason) = db := by
          rw [stepOp_reverse]
          simp [reverseClaimOp, hc, hst]
        rw [this]; exact ⟨hnf, ⟨reward0, hrw0, hmax0⟩, hcap⟩

lemma capReached_run (uid rid maxC : Nat) :
    ∀ (ops : List Op) (db : DB), CapReached db uid rid maxC →
      noUserRewardReversal uid rid db ops = true →
      CapReached (runOps db ops).1 uid rid maxC := by
  intro ops
  induction ops with
  | nil => exact fun db h _ => h
  | cons op ops ih =>
    intro db h hs
    simp only [noUserRewardReversal, Bool.and_eq_true] at hs
    simp only [runOps]
    exact ih (stepOp db op) (capReached_step db uid rid maxC op h hs.1) hs.2

/-- C10 (amended): once the user's count of non-reversed claims for a
reward has reached the reward's maxClaimsPerUser, every later claim
attempt by that user for any QR code of that reward is rejected with a
client error and no state change, after any intervening sequence of
protocol operations that contains no reversal of one of that user's
claims for that reward. The original unconditional claim (the cap never
resets) is refuted by C10_counterexample: a reversal lowers the counted
claims, after which a new claim for the same reward succeeds. -/
theorem C10_cap_persistence (db : DB) (ops : List Op) (uid rid maxC : Nat)
    (code : String) (qid : Nat) (qr : QRCode)
    (h : CapReached db uid rid maxC)
    (hseq : noUserRewardReversal uid rid db ops = true)
    (hqr : (runOps db ops).1.qrCodes.find? (fun kv => kv.2.code == code)
        = some (qid, qr))
    (hqrid : qr.rewardId = rid) :
    isClientError (claimRewardOp (runOps db ops).1 uid code).1 = true ∧
    (claimRewardOp (runOps db ops).1 uid code).2 = (runOps db ops).1 := by
  rcases capReached_run uid rid maxC ops db h hseq with
    ⟨hnf, ⟨reward', hrw, hmax⟩, hcap⟩
  subst hqrid
  have hcap2 : reward'.maxClaimsPerUser ≤
      countClaims (fun c => c.userId == uid && c.rewardId == qr.rewardId
        && nonReversed c) (runOps db ops).1.claims := by
    have hcc : capCount (runOps db ops).1 uid qr.rewardId
        = countClaims (fun c => c.userId == uid && c.rewardId == qr.rewardId
            && nonReversed c) (runOps db ops).1.claims := rfl
    omega
  exact claim_rejected_of_cap (runOps db ops).1 uid code qid qr reward'
    hqr hrw hnf hcap2

/-- C10 counterexample: in the two-QR scenario the cap of one claim per
user is reached, and a fresh attempt is indeed rejected; but after the
admin reverses the first claim, the same user's claim of the second QR
code of the same reward succeeds, so the cap does reset. -/
theorem C10_counterexample :
    1 ≤ capCount exDB2a 0 0 ∧
    isClientError (claimRewardOp exDB2a 0 "qr2").1 = true ∧
    (claimRewardOp (stepOp exDB2a (Op.reverse 0 Option.none)) 0 "qr2").1
      = ClaimOutcome.success 1 10 :=
  ⟨by decide, by decide, by decide⟩

/-- C10 witness: with the cap reached and an intervening rejected re-scan
(no reversal), a later attempt at the second QR code of the reward is
still rejected without state change. -/
theorem C10_witness :
    CapReached exDB2a 0 0 1 ∧
    noUserRewardReversal 0 0 exDB2a [Op.claim 0 "qr1"] = true ∧
    isClientError
      (claimRewardOp (runOps exDB2a [Op.claim 0 "qr1"]).1 0 "qr2").1 = true :=
  ⟨⟨by decide,
    ⟨{ partnerId := 0, points := 10, maxClaimsPerUser := 1,
       totalMaxClaims := Option.none, currentClaims := 1,
       expiryDate := Option.none, isActive := true }, by decide, by decide⟩,
    by decide⟩,
   by decide,
   (C10_cap_persistence exDB2a [Op.claim 0 "qr1"] 0 0 1 "qr2" 1
      ({ code := "qr2", partnerId := 0, rewardId := 0, isActive := true,
         successfulClaims := 0 })
      ⟨by decide,
        ⟨{ partnerId := 0, points := 10, maxClaimsPerUser := 1,
           totalMaxClaims := Option.none, currentClaims := 1,
           expiryDate := Option.none, isActive := true }, by decide, by decide⟩,
        by decide⟩
      (by decide) (by decide) (by decide)).1⟩

lemma insertDesc_perm (e : LBEntry) (l : List LBEntry) :
    List.Perm (insertDesc e l) (e :: l) := by
  induction l with
  | nil => exact List.Perm.refl _
  | cons x xs ih =>
    unfold insertDesc
    split
    · exact List.Perm.refl _
    · exact (ih.cons x).trans (List.Perm.swap e x xs)

lemma sortDesc_perm (l : List LBEntry) : List.Perm (sortDesc l) l := by
  induction l with
  | nil => exact List.Perm.refl _
  | cons x xs ih =>
    exact (insertDesc_perm x (sortDesc xs)).trans (ih.cons x)

lemma insertDesc_sorted (e : LBEntry) (l : List LBEntry)
    (h : List.Pairwise (fun a b => b.totalPoints ≤ a.totalPoints) l) :
    List.Pairwise (fun a b => b.totalPoints ≤ a.totalPoints) (insertDesc e l) := by
  induction l with
  | nil => simp [insertDesc]
  | cons x xs ih =>
    rcases List.pairwise_cons.mp h with ⟨hx, hxs⟩
    unfold insertDesc
    split
    next hlt =>
      refine List.pairwise_cons.mpr ⟨?_, h⟩
      intro b hb
      rcases List.mem_cons.mp hb with rfl | hb2
      · omega
      · have := hx b hb2
        omega
    next hlt =>
      refine List.pairwise_cons.mpr ⟨?_, ih hxs⟩
      intro b hb
      have hb2 := (insertDesc_perm e xs).mem_iff.mp hb
      rcases List.mem_cons.mp hb2 with rfl | hb3
      · omega
      · exact hx b hb3

lemma sortDesc_sorted (l : List LBEntry) :
    List.Pairwise (fun a b => b.totalPoints ≤ a.totalPoints) (sortDesc l) := by
  induction l with
  | nil => simp [sortDesc]
  | cons x xs ih => exact insertDesc_sorted x (sortDesc xs) ih

lemma pairwise_enumFrom {R : LBEntry → LBEntry → Prop} :
    ∀ (s : List LBEntry) (n : Nat), List.Pairwise R s →
      List.Pairwise (fun a b => R a.2 b.2) (List.enumFrom n s) := by
  intro s
  induction s with
  | nil => intro n _; simp
  | cons x xs ih =>
    intro n h
    rcases List.pairwise_cons.mp h with ⟨hx, hxs⟩
    refine List.pairwise_cons.mpr ⟨?_, ih (n + 1) hxs⟩
    intro b hb
    have hb2 : b.2 ∈ xs := by
      have := List.mem_map_of_mem Prod.snd hb
      rwa [List.enumFrom_map_snd] at this
    exact hx b.2 hb2

lemma enumFrom_map_core (s : List LBEntry) :
    ∀ n, ((List.enumFrom n s).map assignRank).map
        (fun e => (e.userId, e.totalPoints, e.previousRank))
      = s.map (fun e => (e.userId, e.totalPoints, e.currentRank)) := by
  induction s with
  | nil => intro n; rfl
  | cons x xs ih =>
    intro n
    simp only [List.enumFrom, List.map_cons, ih (n + 1)]
    rfl

lemma enumFrom_assignRank_get :
    ∀ (s : List LBEntry) (n i : Nat)
      (hi : i < ((List.enumFrom n s).map assignRank).length),
      (((List.enumFrom n s).map assignRank).get ⟨i, hi⟩).currentRank
        = some (n + i + 1) := by
  intro s
  induction s with
  | nil => intro n i hi; simp at hi
  | cons x xs ih =>
    intro n i hi
    cases i with
    | zero => rfl
    | succ j =>
      simp only [List.enumFrom, List.map_cons, List.get_cons_succ]
      rw [ih (n + 1) j]
      congr 1
      omega

/-- C9 (confirmed): updateAllRankings applied to N leaderboard entries
returns the entries in descending totalPoints order carrying currentRank
values 1 through N in list order (hence a permutation of 1..N consistent
with the ordering), shifts every entry's old currentRank into
previousRank while preserving the entries themselves, and derives
rankMovement as new when the prior rank was null, up when the new rank is
smaller, down when larger, and none when equal. Stated for entries whose
stored rank is never the unreachable value 0, which the source's
javascript truthiness test would also map to new. -/
theorem C9_updateAllRankings (l : List LBEntry)
    (h0 : ∀ e ∈ l, e.currentRank ≠ some 0) :
    (updateAllRankings l).length = l.length ∧
    (∀ i (hi : i < (updateAllRankings l).length),
       ((updateAllRankings l).get ⟨i, hi⟩).currentRank = some (i + 1)) ∧
    List.Pairwise (fun a b => b.totalPoints ≤ a.totalPoints)
      (updateAllRankings l) ∧
    List.Perm ((updateAllRankings l).map
        (fun e => (e.userId, e.totalPoints, e.previousRank)))
      (l.map (fun e => (e.userId, e.totalPoints, e.currentRank))) ∧
    (∀ e ∈ updateAllRankings l,
       (e.previousRank = Option.none → e.rankMovement = .new) ∧
       (∀ p q, e.previousRank = some p → e.currentRank = some q →
          e.rankMovement = if q < p then .up else if q > p then .down
            else RankMovement.none)) := by
  have henum : List.enum (sortDesc l) = List.enumFrom 0 (sortDesc l) := rfl
  refine ⟨?_, ?_, ?_, ?_, ?_⟩
  · unfold updateAllRankings
    rw [henum, List.length_map, List.enumFrom_length]
    exact (sortDesc_perm l).length_eq
  · intro i hi
    have h2 := enumFrom_assignRank_get (sortDesc l) 0 i hi
    rw [show (0 : Nat) + i + 1 = i + 1 by omega] at h2
    exact h2
  · unfold updateAllRankings
    rw [List.pairwise_map]
    exact pairwise_enumFrom (sortDesc l) 0 (sortDesc_sorted l)
  · unfold updateAllRankings
    rw [henum, enumFrom_map_core (sortDesc l) 0]
    exact (sortDesc_perm l).map _
  · intro e he
    unfold updateAllRankings at he
    rcases List.mem_map.mp he with ⟨ie, hie, rfl⟩
    have hmem : ie.2 ∈ l := by
      have h1 := List.mem_map_of_mem Prod.snd hie
      rw [henum, List.enumFrom_map_snd] at h1
      exact (sortDesc_perm l).mem_iff.mp h1
    have hne0 := h0 ie.2 hmem
    constructor
    · intro hprev
      have hcn : ie.2.currentRank = Option.none := hprev
      simp [assignRank, rankMovementOf, hcn]
    · intro p q hprev hcur
      have hp : ie.2.currentRank = some p := hprev
      have hq : q = ie.1 + 1 := by
        have h2 : some (ie.1 + 1) = some q := hcur
        exact (Option.some.inj h2).symm
      subst hq
      rcases p with _ | p'
      · exact absurd hp hne0
      · show rankMovementOf ie.2.currentRank (ie.1 + 1) = _
        rw [hp]
        rfl

/-- The leaderboard scenario of the specification: A has overtaken B on
points while the stored ranks still say B first. -/
def exLB : List LBEntry :=
  [{ userId := 0, totalPoints := 900, currentRank := some 2,
     previousRank := some 2, rankMovement := RankMovement.none },
   { userId := 1, totalPoints := 800, currentRank := some 1,
     previousRank := some 1, rankMovement := RankMovement.none }]

/-- C9 witness: the ranking theorem applied to the concrete two-entry
leaderboard. -/
theorem C9_witness :
    (∀ e ∈ exLB, e.currentRank ≠ some 0) ∧
    (updateAllRankings exLB).length = exLB.length :=
  ⟨by decide, (C9_updateAllRankings exLB (by decide)).1⟩
